import Mathlib

/-!
Verification development for the ceramic-deploy rollout engine.

The definitions below are a shallow embedding of the Go sources:
  * the ECS cluster rollout driver (package aws: `PopulateEnvLayout`,
    `UpdateEnv`, `CheckEnv` and their helpers), and
  * the deploy job state machine (cd/manager/jobs/deploy.go: `DeployJob`,
    `AdvanceJob`).

Go maps are embedded as association lists in literal order (Go map
iteration order is unspecified; the lists fix one order).  Nil pointers to
task sets become `Option`.  Calls to the remote ECS control plane are
abstracted by an oracle record of response functions; force-stop calls
issued to the platform are collected in an explicit action trace.  Errors
are strings, as `error` values in the source are only ever propagated or
rendered.
-/

namespace CeramicDeploy

/-- Errors are carried as human-readable strings, as in the source. -/
abbrev Err := String

/-- manager.DeployType: dispatch tag for long-running services vs one-off
tasks.  The Go source uses a string-valued type with exactly these two
values plus an unreachable default branch; we embed it as a closed
inductive. -/
inductive DeployType where
  | service
  | task
deriving DecidableEq, Repr

/-- manager.Task: one deployment unit.  `repo` is the optional image
repository override, `temp` marks transient (run-once) units, `id` holds
the revision identifier written back by the update phase (empty until
then). -/
structure Task where
  repo : String
  temp : Bool
  id : String
deriving DecidableEq, Repr

/-- The Go zero value `manager.Task{}`. -/
def emptyTask : Task := { repo := "", temp := false, id := "" }

/-- manager.TaskSet: a named collection of deployment units with an
optional repository override. -/
structure TaskSet where
  repo : String
  tasks : List (String × Task)
deriving DecidableEq, Repr

/-- manager.Cluster: optional service task set and optional plain task
set, with an optional repository override. -/
structure Cluster where
  repo : String
  serviceTasks : Option TaskSet
  tasks : Option TaskSet
deriving DecidableEq, Repr

/-- manager.Layout: the full rollout topology with the default image
repository. -/
structure Layout where
  clusters : List (String × Cluster)
  repo : String
deriving DecidableEq, Repr

/-- The repeated override pattern of the source (`x := inherited; if
len(override) > 0 { x = override }`), used at the cluster level in
`UpdateEnv`, at the task-set level in `updateEnvTaskSet`, and at the task
level in `updateEnvServiceTask` / `updateEnvTask`. -/
def resolveRepoOverride (inherited override : String) : String :=
  if override.length > 0 then override else inherited

/-- The repository actually used for a task by the update phase: the
composition of the three override steps along the call chain
`UpdateEnv → updateEnvTaskSet → updateEnvServiceTask/updateEnvTask`. -/
def effectiveRepo (layout : Layout) (cluster : Cluster) (taskSet : TaskSet) (task : Task) : String :=
  resolveRepoOverride (resolveRepoOverride (resolveRepoOverride layout.repo cluster.repo) taskSet.repo) task.repo

/-- The repository resolution order as the specification words it:
Task.repo if non-empty, else TaskSet.repo, else Cluster.repo, else
Layout.repo, first non-empty wins in that fixed order. -/
def effectiveRepoSpec (layout : Layout) (cluster : Cluster) (taskSet : TaskSet) (task : Task) : String :=
  if task.repo ≠ "" then task.repo
  else if taskSet.repo ≠ "" then taskSet.repo
  else if cluster.repo ≠ "" then cluster.repo
  else layout.repo

theorem strLength_pos_iff (s : String) : 0 < s.length ↔ s ≠ "" := by
  constructor
  · intro h he
    subst he
    simp at h
  · intro h
    cases s with
    | mk data =>
      cases data with
      | nil => exact absurd rfl h
      | cons c cs => simp [String.length]

/-- C3: the effective image repository used by the update phase is
Task.repo if non-empty, else TaskSet.repo, else Cluster.repo, else
Layout.repo — first non-empty wins, in that fixed order. -/
theorem effectiveRepo_eq_spec (layout : Layout) (cluster : Cluster) (taskSet : TaskSet) (task : Task) :
    effectiveRepo layout cluster taskSet task = effectiveRepoSpec layout cluster taskSet task := by
  unfold effectiveRepo effectiveRepoSpec resolveRepoOverride
  by_cases ht : task.repo = ""
  · by_cases hs : taskSet.repo = ""
    · by_cases hc : cluster.repo = ""
      · simp [ht, hs, hc]
      · have : 0 < cluster.repo.length := (strLength_pos_iff _).mpr hc
        simp [ht, hs, hc, this]
    · have : 0 < taskSet.repo.length := (strLength_pos_iff _).mpr hs
      simp [ht, hs, this]
  · have : 0 < task.repo.length := (strLength_pos_iff _).mpr ht
    simp [ht, this]

/-- Visible side effects on the orchestration platform that the claims
talk about: a force-stop of one running task instance
(`ecs.StopTask` issued by `stopEcsTasks`). -/
inductive Action where
  | stop (cluster taskArn : String)
deriving DecidableEq, Repr

/-- Oracle for the remote ECS control plane: each field summarizes one
describe/register/mutate round trip made by the driver.  `Except` failure
stands for a transport error or an ECS-reported failure. -/
structure EcsOracle where
  /-- describeEcsService, projected to the task definition ARN of the
  single described service (`output.Services[0].TaskDefinition`). -/
  describeServiceTaskDef : String → String → Except Err String
  /-- updateEcsTaskDefinition: describe the given task definition, clone
  it with the new image, register it, return the new revision ARN. -/
  registerUpdatedTaskDef : String → String → Except Err String
  /-- ecs.UpdateService pointing the service at a new task definition. -/
  updateServiceCall : String → String → String → Except Err Unit
  /-- ecs.ListTaskDefinitions for a family, newest first, projected to
  the latest ARN (`output.TaskDefinitionArns[0]`). -/
  latestTaskDefArn : String → Except Err String
  /-- ecs.ListTasks: ARNs of the currently running tasks of a family. -/
  runningTasks : String → String → Except Err (List String)
  /-- ecs.StopTask on one task ARN. -/
  stopTaskCall : String → String → Except Err Unit
  /-- checkEcsService's describe call, projected to the deployment list
  of the service as (task definition ARN, running count) pairs. -/
  serviceDeployments : String → String → Except Err (List (String × Nat))
  /-- CheckTask's ecs.DescribeTasks, projected to the LastStatus strings
  of the tasks found for the given ARNs. -/
  taskStatuses : String → List String → Except Err (List String)

/-- Loop body of stopEcsTasks: stop every listed task ARN, aborting on
the first stop error.  Each issued stop is recorded in the trace. -/
def stopArnsLoop (o : EcsOracle) (cluster : String) : List String → Except Err Unit × List Action
  | [] => (.ok (), [])
  | arn :: rest =>
    match o.stopTaskCall cluster arn with
    | .error e => (.error e, [Action.stop cluster arn])
    | .ok _ =>
      match stopArnsLoop o cluster rest with
      | (r, tr) => (r, Action.stop cluster arn :: tr)

/-- stopEcsTasks: list the running tasks of the family and stop each. -/
def stopEcsTasks (o : EcsOracle) (cluster family : String) : Except Err Unit × List Action :=
  match o.runningTasks cluster family with
  | .error e => (.error e, [])
  | .ok arns => stopArnsLoop o cluster arns

/-- The outcome of one per-unit update operation: a value, a returned
error, or a runtime panic (a nil dereference in the source, which
unwinds the whole call stack rather than returning an error). -/
inductive UnitResult (α : Type) where
  | ok (a : α)
  | fail (e : Err)
  | panicked
deriving DecidableEq, Repr

/-- The outcome of a walk over several units: all updated, aborted on a
returned error, or aborted by a panic unwinding through the walk. -/
inductive WalkStatus where
  | ok
  | fail (e : Err)
  | panicked
deriving DecidableEq, Repr

/-- updateEcsService: register a task definition carrying the new image,
point the service at it, and, only when the unit is not transient, stop
the instances still running under the old revision.  Two error paths of
the source are kept as they are written: the error of the first describe
call is dropped and the nil output is dereferenced (part_000:322-325), a
panic; and the error of updateEcsTaskDefinition is assigned but never
checked before being overwritten (part_000:325,336), so a failed
registration leaves the new ARN as the empty string and control simply
continues into the UpdateService call. -/
def updateEcsService (o : EcsOracle) (cluster service image : String) (transientTask : Bool) :
    UnitResult String × List Action :=
  match o.describeServiceTaskDef cluster service with
  | .error _ => (.panicked, [])
  | .ok taskDefArn =>
    let newTaskDefArn :=
      match o.registerUpdatedTaskDef taskDefArn image with
      | .error _ => ""
      | .ok arn => arn
    match o.updateServiceCall cluster service newTaskDefArn with
    | .error e => (.fail e, [])
    | .ok _ =>
      if !transientTask then
        match stopEcsTasks o cluster service with
        | (.error e, tr) => (.fail e, tr)
        | (.ok _, tr) => (.ok newTaskDefArn, tr)
      else
        (.ok newTaskDefArn, [])

/-- updateEcsTask: resolve the latest task definition of the family,
stop its running instances first when the unit is not transient, then
register the updated definition and return its ARN.  Every error on
this path is checked by the source and returned. -/
def updateEcsTask (o : EcsOracle) (cluster family image : String) (transientTask : Bool) :
    UnitResult String × List Action :=
  match o.latestTaskDefArn family with
  | .error e => (.fail e, [])
  | .ok taskDefArn =>
    if !transientTask then
      match stopEcsTasks o cluster family with
      | (.error e, tr) => (.fail e, tr)
      | (.ok _, tr) =>
        match o.registerUpdatedTaskDef taskDefArn image with
        | .error e => (.fail e, tr)
        | .ok newArn => (.ok newArn, tr)
    else
      match o.registerUpdatedTaskDef taskDefArn image with
      | .error e => (.fail e, [])
      | .ok newArn => (.ok newArn, [])

/-- updateEnvServiceTask: resolve the task-level repository override,
update the service, and stamp the returned revision into `Task.id`.  A
panic below never reaches the id write. -/
def updateEnvServiceTask (o : EcsOracle) (task : Task) (cluster service taskSetRepo commitHash : String) :
    UnitResult Task × List Action :=
  match updateEcsService o cluster service
      (resolveRepoOverride taskSetRepo task.repo ++ ":" ++ commitHash) task.temp with
  | (.panicked, tr) => (.panicked, tr)
  | (.fail e, tr) => (.fail e, tr)
  | (.ok newId, tr) => (.ok { task with id := newId }, tr)

/-- updateEnvTask: same as updateEnvServiceTask for a plain task family. -/
def updateEnvTask (o : EcsOracle) (task : Task) (cluster taskName taskSetRepo commitHash : String) :
    UnitResult Task × List Action :=
  match updateEcsTask o cluster taskName
      (resolveRepoOverride taskSetRepo task.repo ++ ":" ++ commitHash) task.temp with
  | (.panicked, tr) => (.panicked, tr)
  | (.fail e, tr) => (.fail e, tr)
  | (.ok newId, tr) => (.ok { task with id := newId }, tr)

/-- The deploy-type switch in the loop body of updateEnvTaskSet. -/
def unitUpdate (o : EcsOracle) (dt : DeployType) (cluster taskSetRepo commitHash : String)
    (name : String) (task : Task) : UnitResult Task × List Action :=
  match dt with
  | .service => updateEnvServiceTask o task cluster name taskSetRepo commitHash
  | .task => updateEnvTask o task cluster name taskSetRepo commitHash

/-- The loop in updateEnvTaskSet, over the units of one task set.  The
first failing unit aborts the walk: its error is returned, the units
already walked keep their freshly stamped ids, the failing unit and the
ones after it are returned unchanged (the Go loop mutates tasks in place
and returns on the first error); a panic unwinds the walk at once. -/
def updateTasksList (o : EcsOracle) (dt : DeployType) (cluster taskSetRepo commitHash : String) :
    List (String × Task) → List (String × Task) × List Action × WalkStatus
  | [] => ([], [], .ok)
  | (name, task) :: rest =>
    match unitUpdate o dt cluster taskSetRepo commitHash name task with
    | (.panicked, tr) => ((name, task) :: rest, tr, .panicked)
    | (.fail e, tr) => ((name, task) :: rest, tr, .fail e)
    | (.ok task', tr) =>
      match updateTasksList o dt cluster taskSetRepo commitHash rest with
      | (rest', tr2, status) => ((name, task') :: rest', tr ++ tr2, status)

/-- updateEnvTaskSet: skip a nil task set, otherwise resolve the
task-set-level repository override and walk the units. -/
def updateEnvTaskSet (o : EcsOracle) (taskSet : Option TaskSet) (dt : DeployType)
    (cluster clusterRepo commitHash : String) :
    Option TaskSet × List Action × WalkStatus :=
  match taskSet with
  | none => (none, [], .ok)
  | some ts =>
    match updateTasksList o dt cluster (resolveRepoOverride clusterRepo ts.repo) commitHash ts.tasks with
    | (tasks', tr, status) => (some { ts with tasks := tasks' }, tr, status)

/-- updateEnvCluster: update the service task set, and only if that
succeeded, the plain task set. -/
def updateEnvCluster (o : EcsOracle) (c : Cluster) (clusterName clusterRepo commitHash : String) :
    Cluster × List Action × WalkStatus :=
  match updateEnvTaskSet o c.serviceTasks .service clusterName clusterRepo commitHash with
  | (st', tr, .panicked) => ({ c with serviceTasks := st' }, tr, .panicked)
  | (st', tr, .fail e) => ({ c with serviceTasks := st' }, tr, .fail e)
  | (st', tr, .ok) =>
    match updateEnvTaskSet o c.tasks .task clusterName clusterRepo commitHash with
    | (ts', tr2, status) => ({ c with serviceTasks := st', tasks := ts' }, tr ++ tr2, status)

/-- The cluster loop of UpdateEnv, aborting on the first cluster whose
update failed and keeping the partially stamped clusters. -/
def updateClustersList (o : EcsOracle) (layoutRepo commitHash : String) :
    List (String × Cluster) → List (String × Cluster) × List Action × WalkStatus
  | [] => ([], [], .ok)
  | (name, c) :: rest =>
    match updateEnvCluster o c name (resolveRepoOverride layoutRepo c.repo) commitHash with
    | (c', tr, .panicked) => ((name, c') :: rest, tr, .panicked)
    | (c', tr, .fail e) => ((name, c') :: rest, tr, .fail e)
    | (c', tr, .ok) =>
      match updateClustersList o layoutRepo commitHash rest with
      | (rest', tr2, status) => ((name, c') :: rest', tr ++ tr2, status)

/-- UpdateEnv: the update phase over a whole layout.  Returns the layout
with the revision ids stamped so far, the trace of force-stops issued,
and the walk status: ok, aborted with the first returned error, or torn
down by a panic. -/
def UpdateEnv (o : EcsOracle) (layout : Layout) (commitHash : String) :
    Layout × List Action × WalkStatus :=
  match updateClustersList o layout.repo commitHash layout.clusters with
  | (clusters', tr, status) => ({ layout with clusters := clusters' }, tr, status)

/-- checkEcsService: a service unit is converged when some deployment of
the service uses the stored task definition ARN with a positive running
count (the Go loop returning true on the first match is `List.any`). -/
def checkEcsService (o : EcsOracle) (cluster service taskDefArn : String) : Except Err Bool :=
  match o.serviceDeployments cluster service with
  | .error e => .error e
  | .ok deployments =>
    .ok (deployments.any fun d => d.1 = taskDefArn && decide (0 < d.2))

/-- CheckTask: describe the given task ARNs and report whether all tasks
found are in the requested lifecycle state; no tasks found reports
false. -/
def CheckTask (o : EcsOracle) (running : Bool) (cluster : String) (taskArn : List String) :
    Except Err Bool :=
  match o.taskStatuses cluster taskArn with
  | .error e => .error e
  | .ok statuses =>
    let checkStatus := if running then "RUNNING" else "STOPPED"
    if 0 < statuses.length then
      .ok (statuses.all fun st => st = checkStatus)
    else
      .ok false

/-- The unit loop of checkEnvTaskSet, kept faithful to the source: in
the service arm and in the non-transient plain-task arm the loop body
returns `true` as soon as the first such unit is converged, without
visiting the rest of the list; only transient plain tasks fall through
to the next iteration. -/
def checkTasksList (o : EcsOracle) (dt : DeployType) (cluster : String) :
    List (String × Task) → Except Err Bool
  | [] => .ok true
  | (name, task) :: rest =>
    match dt with
    | .service =>
      match checkEcsService o cluster name task.id with
      | .error e => .error e
      | .ok false => .ok false
      | .ok true => .ok true
    | .task =>
      if !task.temp then
        match CheckTask o true cluster [name, task.id] with
        | .error e => .error e
        | .ok false => .ok false
        | .ok true => .ok true
      else
        checkTasksList o dt cluster rest

/-- checkEnvTaskSet: a nil task set is trivially converged, otherwise
run the unit loop. -/
def checkEnvTaskSet (o : EcsOracle) (taskSet : Option TaskSet) (dt : DeployType)
    (cluster : String) : Except Err Bool :=
  match taskSet with
  | none => .ok true
  | some ts => checkTasksList o dt cluster ts.tasks

/-- checkEnvCluster: the service task set first, then the plain task
set, short-circuiting on error or a non-converged result. -/
def checkEnvCluster (o : EcsOracle) (c : Cluster) (clusterName : String) : Except Err Bool :=
  match checkEnvTaskSet o c.serviceTasks .service clusterName with
  | .error e => .error e
  | .ok false => .ok false
  | .ok true => checkEnvTaskSet o c.tasks .task clusterName

/-- The cluster loop of CheckEnv. -/
def checkClustersList (o : EcsOracle) : List (String × Cluster) → Except Err Bool
  | [] => .ok true
  | (name, c) :: rest =>
    match checkEnvCluster o c name with
    | .error e => .error e
    | .ok false => .ok false
    | .ok true => checkClustersList o rest

/-- CheckEnv: the check phase over a whole layout. -/
def CheckEnv (o : EcsOracle) (layout : Layout) : Except Err Bool :=
  checkClustersList o layout.clusters

/-- PopulateEnvLayout: the static topology table, keyed by component.
`env` stands for the ENV environment variable and `prodEnv` for the
receiver's `e.env == manager.EnvType_Prod` test (the EnvType constants
live in the manager package, outside the given sources).  The Go code
adds the prod-only elp units to the public cluster map after building the
literal; the list embedding appends them to the same task set. -/
def PopulateEnvLayout (env : String) (prodEnv : Bool) (component : String) : Except Err Layout :=
  let globalPfx := "ceramic"
  let privateCluster := globalPfx ++ "-" ++ env
  let publicCluster := globalPfx ++ "-" ++ env ++ "-ex"
  let casCluster := globalPfx ++ "-" ++ env ++ "-cas"
  if component = "ceramic" then
    .ok
      { clusters :=
          [ (privateCluster,
             { repo := ""
               serviceTasks := some { repo := "", tasks := [(privateCluster ++ "-" ++ "node", emptyTask)] }
               tasks := none }),
            (publicCluster,
             { repo := ""
               serviceTasks := some
                 { repo := ""
                   tasks :=
                     [ (publicCluster ++ "-" ++ "node", emptyTask),
                       (publicCluster ++ "-" ++ "gateway", emptyTask) ] ++
                     (if prodEnv then
                        [ (globalPfx ++ "-" ++ "elp-1-1-node", emptyTask),
                          (globalPfx ++ "-" ++ "elp-1-2-node", emptyTask) ]
                      else []) }
               tasks := none }),
            (casCluster,
             { repo := ""
               serviceTasks := some { repo := "", tasks := [(casCluster ++ "-" ++ "node", emptyTask)] }
               tasks := none }) ]
        repo := "ceramic-" ++ env }
  else if component = "ipfs" then
    .ok
      { clusters :=
          [ (privateCluster,
             { repo := ""
               serviceTasks := some { repo := "", tasks := [(privateCluster ++ "-" ++ "ipfs-nd", emptyTask)] }
               tasks := none }),
            (publicCluster,
             { repo := ""
               serviceTasks := some
                 { repo := ""
                   tasks :=
                     [ (publicCluster ++ "-" ++ "ipfs-nd", emptyTask),
                       (publicCluster ++ "-" ++ "ipfs-gw", emptyTask) ] ++
                     (if prodEnv then
                        [ (globalPfx ++ "-" ++ "elp-1-1-ipfs-nd", emptyTask),
                          (globalPfx ++ "-" ++ "elp-1-2-ipfs-nd", emptyTask) ]
                      else []) }
               tasks := none }),
            (casCluster,
             { repo := ""
               serviceTasks := some { repo := "", tasks := [(casCluster ++ "-" ++ "ipfs-nd", emptyTask)] }
               tasks := none }) ]
        repo := "go-ipfs-" ++ env }
  else if component = "cas" then
    .ok
      { clusters :=
          [ (casCluster,
             { repo := ""
               serviceTasks := some
                 { repo := ""
                   tasks :=
                     [ (casCluster ++ "-" ++ "api", emptyTask),
                       (casCluster ++ "-" ++ "scheduler", emptyTask) ] }
               tasks := some
                 { repo := ""
                   tasks :=
                     [ (casCluster ++ "-" ++ "anchor",
                        { repo := "ceramic-" ++ env ++ "-cas-runner"
                          temp := true
                          id := "" }) ] } }) ]
        repo := "ceramic-" ++ env ++ "-cas" }
  else
    .error ("deployJob: unexpected component: " ++ component)

/-- manager.JobStage for deploy jobs. -/
inductive JobStage where
  | queued
  | started
  | completed
  | failed
deriving DecidableEq, Repr

/-- Values stored in the job parameter bag, restricted to the shapes the
deploy job reads and writes: strings (component, sha, error text) and
the embedded Layout. -/
inductive ParamValue where
  | str (s : String)
  | layout (l : Layout)
deriving DecidableEq, Repr

/-- The job parameter bag, a Go `map[string]interface many` embedded as
an association list where an insert shadows older entries. -/
abbrev Params := List (String × ParamValue)

/-- Map lookup: the first entry for the key wins. -/
def Params.lookup : Params → String → Option ParamValue
  | [], _ => none
  | (k, v) :: rest, key => if k = key then some v else Params.lookup rest key

/-- Map insert / overwrite, by shadowing. -/
def Params.set (ps : Params) (k : String) (v : ParamValue) : Params :=
  (k, v) :: ps

/-- The "layout" key of the parameter bag (jobs.LayoutParam). -/
def LayoutParam : String := "layout"

/-- Modelled from the spec: the parameter keys of the manager package
(component identifier, target commit sha, error text), whose literal
values live outside the given sources. -/
def JobParam_Component : String := "component"

def JobParam_Sha : String := "sha"

def JobParam_Error : String := "error"

/-- Modelled from the spec: manager.Error_Timeout, the dedicated timeout
failure reason. -/
def Error_Timeout : String := "Timeout"

/-- manager.JobState: stage, creation timestamp (`Ts`), parameter bag.
Wall-clock instants are naturals. -/
structure JobState where
  stage : JobStage
  ts : Nat
  params : Params
deriving DecidableEq, Repr

/-- Modelled from the spec: manager.PrintJob renders a job state for an
error or log message; its body is outside the given sources.  Only the
fact that the rendering identifies the stage matters here. -/
def printStage : JobStage → String
  | .queued => "queued"
  | .started => "started"
  | .completed => "completed"
  | .failed => "failed"

/-- Modelled from the spec: manager.PrintJob applied to a job state. -/
def PrintJob (s : JobState) : String :=
  printStage s.stage

/-- The collaborator outcomes one AdvanceJob call can observe: the
current time, the manager.DefaultFailureTime constant (defined outside
the given sources), the outcome of the update phase (updateCluster), the
outcome of the check phase (checkCluster), and the error returned by the
persistence store's UpdateJob. -/
structure AdvanceEnv where
  now : Nat
  failureTime : Nat
  updateResult : Except Err Unit
  checkResult : Except Err Bool
  persistResult : Option Err
deriving Repr

/-- The observable outcome of one AdvanceJob call: the returned state
and error, the states handed to the store's UpdateJob, and the states
handed to the notification sink. -/
structure AdvanceResult where
  state : JobState
  err : Option Err
  persisted : List JobState
  notified : List JobState
deriving DecidableEq, Repr

/-- The common tail of AdvanceJob: notify only for the Started, Failed
and Completed stages, then return the state together with the result of
persisting it. -/
def finishAdvance (env : AdvanceEnv) (s : JobState) : AdvanceResult :=
  { state := s
    err := env.persistResult
    persisted := [s]
    notified :=
      if s.stage = .started ∨ s.stage = .failed ∨ s.stage = .completed then [s] else [] }

/-- AdvanceJob (cd/manager/jobs/deploy.go).  The branch order is the
source's: Queued first, then the timeout test
`time.Now().Add(-DefaultFailureTime).After(d.state.Ts)` (that is,
now - failureTime > ts, in truncated Nat subtraction), then Started,
then the unexpected-state fallthrough which returns without notifying or
persisting.  The best-effort build/deploy hash updates only log and are
not part of the observable state. -/
def advanceJob (env : AdvanceEnv) (s : JobState) : AdvanceResult :=
  if s.stage = .queued then
    match env.updateResult with
    | .error e =>
      finishAdvance env { s with stage := .failed, params := s.params.set JobParam_Error (.str e) }
    | .ok _ =>
      finishAdvance env { s with stage := .started }
  else if s.ts < env.now - env.failureTime then
    finishAdvance env
      { s with stage := .failed, params := s.params.set JobParam_Error (.str Error_Timeout) }
  else if s.stage = .started then
    match env.checkResult with
    | .error e =>
      finishAdvance env { s with stage := .failed, params := s.params.set JobParam_Error (.str e) }
    | .ok true =>
      finishAdvance env { s with stage := .completed }
    | .ok false =>
      { state := s, err := none, persisted := [], notified := [] }
  else
    { state := s
      err := some ("deployJob: unexpected state: " ++ PrintJob s)
      persisted := []
      notified := [] }

/-- DeployJob (the constructor): require a string component and a string
sha in the parameter bag, resolve the topology and the registry URI for
the component, and store the fresh layout in the bag only when no layout
entry is already present.  `populate` and `registry` stand for the
injected Deployment collaborator (PopulateLayout / GetRegistryUri).  The
returned value is the job state the constructed job will advance. -/
def DeployJob (populate : String → Except Err Layout) (registry : String → Except Err String)
    (st : JobState) : Except Err JobState :=
  match st.params.lookup JobParam_Component with
  | some (.str component) =>
    match st.params.lookup JobParam_Sha with
    | some (.str _) =>
      match populate component with
      | .error e => .error e
      | .ok clusterLayout =>
        match registry component with
        | .error e => .error e
        | .ok _ =>
          if (st.params.lookup LayoutParam).isSome then
            .ok st
          else
            .ok { st with params := st.params.set LayoutParam (.layout clusterLayout) }
    | _ => .error "deployJob: missing sha"
  | _ => .error "deployJob: missing component (ceramic, ipfs, cas)"

theorem Params.lookup_set (ps : Params) (k : String) (v : ParamValue) :
    (ps.set k v).lookup k = some v := by
  simp [Params.set, Params.lookup]

/-- C9: AdvanceJob never writes the timestamp field: on every return
path the returned state keeps the timestamp set at job construction, so
the timeout budget is measured from job creation. -/
theorem advance_preserves_timestamp (env : AdvanceEnv) (s : JobState) :
    (advanceJob env s).state.ts = s.ts := by
  unfold advanceJob finishAdvance
  split
  · split <;> rfl
  · split
    · rfl
    · split
      · split <;> rfl
      · rfl

/-- C4: Advance on a Started job past the timeout threshold moves it to
Failed with the dedicated timeout error in the parameter bag, and the
outcome does not depend on the check phase result at all. -/
theorem started_past_timeout_fails (env : AdvanceEnv) (s : JobState) (r : Except Err Bool)
    (hst : s.stage = .started) (hto : s.ts < env.now - env.failureTime) :
    (advanceJob env s).state.stage = .failed ∧
    (advanceJob env s).state.params.lookup JobParam_Error = some (.str Error_Timeout) ∧
    advanceJob env s = advanceJob { env with checkResult := r } s := by
  have hq : ¬ s.stage = .queued := by
    rw [hst]
    intro h
    cases h
  refine ⟨?_, ?_, ?_⟩
  · unfold advanceJob
    rw [if_neg hq, if_pos hto]
    rfl
  · unfold advanceJob
    rw [if_neg hq, if_pos hto]
    simpa [finishAdvance] using Params.lookup_set s.params JobParam_Error (.str Error_Timeout)
  · have hto2 :
        s.ts < ({ env with checkResult := r } : AdvanceEnv).now -
          ({ env with checkResult := r } : AdvanceEnv).failureTime := hto
    unfold advanceJob
    rw [if_neg hq, if_pos hto, if_neg hq, if_pos hto2]
    rfl

theorem started_past_timeout_fails_witness :
    (advanceJob
        { now := 100, failureTime := 10, updateResult := .ok (), checkResult := .ok true,
          persistResult := none }
        { stage := .started, ts := 0, params := [] }).state.stage = .failed ∧
    (advanceJob
        { now := 100, failureTime := 10, updateResult := .ok (), checkResult := .ok true,
          persistResult := none }
        { stage := .started, ts := 0, params := [] }).state.params.lookup JobParam_Error =
      some (.str Error_Timeout) ∧
    advanceJob
        { now := 100, failureTime := 10, updateResult := .ok (), checkResult := .ok true,
          persistResult := none }
        { stage := .started, ts := 0, params := [] } =
      advanceJob
        { now := 100, failureTime := 10, updateResult := .ok (), checkResult := .ok false,
          persistResult := none }
        { stage := .started, ts := 0, params := [] } :=
  started_past_timeout_fails
    { now := 100, failureTime := 10, updateResult := .ok (), checkResult := .ok true,
      persistResult := none }
    { stage := .started, ts := 0, params := [] } (.ok false) rfl (by decide)

/-- C2 counterexample: a job already in the terminal Completed stage
whose timestamp lies further in the past than the failure budget is
mutated by Advance — its stage is overwritten to Failed by the timeout
branch — so the claim that a job in an unexpected stage is never mutated
regardless of elapsed time is false on the code. -/
theorem terminal_stage_past_timeout_mutates :
    ({ stage := .completed, ts := 0, params := [] } : JobState).stage = .completed ∧
    (advanceJob
        { now := 100, failureTime := 10, updateResult := .ok (), checkResult := .ok true,
          persistResult := none }
        { stage := .completed, ts := 0, params := [] }).state.stage = .failed := by
  constructor
  · rfl
  · rfl

/-- C2 (amended): when Advance reaches a job whose stage is neither
Queued nor Started and the timeout budget has not yet been exceeded, it
returns an error identifying the unexpected stage and performs no
mutation, no notification and no persistence call. -/
theorem unexpected_stage_error_no_mutation (env : AdvanceEnv) (s : JobState)
    (hq : ¬ s.stage = .queued) (hst : ¬ s.stage = .started)
    (hto : ¬ s.ts < env.now - env.failureTime) :
    advanceJob env s =
      { state := s, err := some ("deployJob: unexpected state: " ++ PrintJob s),
        persisted := [], notified := [] } := by
  unfold advanceJob
  rw [if_neg hq, if_neg hto, if_neg hst]

theorem unexpected_stage_error_no_mutation_witness :
    advanceJob
        { now := 5, failureTime := 10, updateResult := .ok (), checkResult := .ok true,
          persistResult := none }
        { stage := .completed, ts := 0, params := [] } =
      { state := { stage := .completed, ts := 0, params := [] },
        err := some ("deployJob: unexpected state: " ++
          PrintJob { stage := .completed, ts := 0, params := [] }),
        persisted := [], notified := [] } :=
  unexpected_stage_error_no_mutation
    { now := 5, failureTime := 10, updateResult := .ok (), checkResult := .ok true,
      persistResult := none }
    { stage := .completed, ts := 0, params := [] } (by decide) (by decide) (by decide)

/-- C5 counterexample: Advance on a Completed job inside the timeout
window takes the unexpected-stage path and returns without any
persistence call, yet it is not the not-yet-converged Started path — so
that path is not the sole return path without a fresh persistence
call. -/
theorem unexpected_stage_path_skips_persist :
    (advanceJob
        { now := 5, failureTime := 10, updateResult := .ok (), checkResult := .ok true,
          persistResult := none }
        { stage := .completed, ts := 0, params := [] }).persisted = [] ∧
    ({ stage := .completed, ts := 0, params := [] } : JobState).stage ≠ .started := by
  constructor
  · rfl
  · intro h
    cases h

/-- C5 (amended): Advance returns without a persistence call exactly on
two paths — the not-yet-converged Started path and the unexpected-stage
path — and on every other path the returned state itself is handed to
the store. -/
theorem persisted_iff_paths (env : AdvanceEnv) (s : JobState) :
    ((advanceJob env s).persisted = [] ↔
      (¬ s.stage = .queued ∧ ¬ s.ts < env.now - env.failureTime ∧
        ((s.stage = .started ∧ env.checkResult = .ok false) ∨ ¬ s.stage = .started))) ∧
    ((advanceJob env s).persisted = [] ∨
      (advanceJob env s).persisted = [(advanceJob env s).state]) := by
  unfold advanceJob finishAdvance
  split
  · rename_i hq
    split <;> simp [hq]
  · rename_i hq
    split
    · rename_i hto
      simp [hto]
    · rename_i hto
      split
      · rename_i hst
        split
        · rename_i heq
          simp [hq, hto, hst, heq]
        · rename_i heq
          simp [hq, hto, hst, heq]
        · rename_i heq
          simp [hq, hto, hst, heq]
      · rename_i hst
        simp [hq, hto, hst]

theorem updateEcsService_transient_trace (o : EcsOracle) (cluster service image : String) :
    (updateEcsService o cluster service image true).2 = [] := by
  unfold updateEcsService
  rcases hd : o.describeServiceTaskDef cluster service with e | taskDefArn <;> simp [hd]
  rcases hu : o.updateServiceCall cluster service
      (match o.registerUpdatedTaskDef taskDefArn image with
       | .error _ => ""
       | .ok arn => arn) with e | u <;> simp [hu]

theorem updateEcsTask_transient_trace (o : EcsOracle) (cluster family image : String) :
    (updateEcsTask o cluster family image true).2 = [] := by
  unfold updateEcsTask
  rcases hd : o.latestTaskDefArn family with e | taskDefArn <;> simp [hd]
  rcases hr : o.registerUpdatedTaskDef taskDefArn image with e | newArn <;> simp [hr]

/-- C6: a transient unit is never force-stopped by the update phase:
with `temp = true` neither the service update nor the plain-task update
issues a single stop action, whatever the platform answers. -/
theorem transient_unit_never_force_stopped (o : EcsOracle) (task : Task)
    (cluster name taskSetRepo commitHash : String) (h : task.temp = true) :
    (updateEnvServiceTask o task cluster name taskSetRepo commitHash).2 = [] ∧
    (updateEnvTask o task cluster name taskSetRepo commitHash).2 = [] := by
  constructor
  · unfold updateEnvServiceTask
    rw [h]
    rcases hres : updateEcsService o cluster name
        (resolveRepoOverride taskSetRepo task.repo ++ ":" ++ commitHash) true with ⟨r, tr⟩
    have htr : tr = [] := by
      have hz := updateEcsService_transient_trace o cluster name
        (resolveRepoOverride taskSetRepo task.repo ++ ":" ++ commitHash)
      rw [hres] at hz
      exact hz
    cases r with
    | ok newId => exact htr
    | fail e => exact htr
    | panicked => exact htr
  · unfold updateEnvTask
    rw [h]
    rcases hres : updateEcsTask o cluster name
        (resolveRepoOverride taskSetRepo task.repo ++ ":" ++ commitHash) true with ⟨r, tr⟩
    have htr : tr = [] := by
      have hz := updateEcsTask_transient_trace o cluster name
        (resolveRepoOverride taskSetRepo task.repo ++ ":" ++ commitHash)
      rw [hres] at hz
      exact hz
    cases r with
    | ok newId => exact htr
    | fail e => exact htr
    | panicked => exact htr

/-- A fixed oracle with one running instance per family, used to
instantiate hypotheses on concrete inputs. -/
def plainOracle : EcsOracle where
  describeServiceTaskDef := fun _ _ => .ok "arn-old"
  registerUpdatedTaskDef := fun _ _ => .ok "arn-new"
  updateServiceCall := fun _ _ _ => .ok ()
  latestTaskDefArn := fun _ => .ok "arn-old"
  runningTasks := fun _ _ => .ok ["arn-run-1"]
  stopTaskCall := fun _ _ => .ok ()
  serviceDeployments := fun _ _ => .ok [("arn-new", 1)]
  taskStatuses := fun _ _ => .ok ["RUNNING"]

theorem transient_unit_never_force_stopped_witness :
    (updateEnvServiceTask plainOracle { repo := "", temp := true, id := "" }
      "clus" "anchor" "repo" "abc123").2 = [] ∧
    (updateEnvTask plainOracle { repo := "", temp := true, id := "" }
      "clus" "anchor" "repo" "abc123").2 = [] :=
  transient_unit_never_force_stopped plainOracle { repo := "", temp := true, id := "" }
    "clus" "anchor" "repo" "abc123" rfl

/-- The per-unit result of one successful unit update, used to state
what the update phase leaves behind for the units walked before a
failure. -/
def stampedTask (o : EcsOracle) (dt : DeployType) (cluster taskSetRepo commitHash : String)
    (p : String × Task) : String × Task :=
  match unitUpdate o dt cluster taskSetRepo commitHash p.1 p.2 with
  | (.ok task', _) => (p.1, task')
  | (.fail _, _) => p
  | (.panicked, _) => p

/-- Every unit of a list updates successfully under the given walk
parameters. -/
def unitsOk (o : EcsOracle) (dt : DeployType) (cluster taskSetRepo commitHash : String)
    (l : List (String × Task)) : Prop :=
  ∀ p ∈ l, ∃ task' tr, unitUpdate o dt cluster taskSetRepo commitHash p.1 p.2 = (.ok task', tr)

/-- Every unit of an optional task set updates successfully, under the
task-set repository its walk resolves. -/
def taskSetOk (o : EcsOracle) (dt : DeployType) (cluster clusterRepo commitHash : String) :
    Option TaskSet → Prop
  | none => True
  | some s => unitsOk o dt cluster (resolveRepoOverride clusterRepo s.repo) commitHash s.tasks

/-- Every unit of both task sets of a cluster updates successfully. -/
def clusterOk (o : EcsOracle) (layoutRepo commitHash : String) (p : String × Cluster) : Prop :=
  taskSetOk o .service p.1 (resolveRepoOverride layoutRepo p.2.repo) commitHash p.2.serviceTasks ∧
  taskSetOk o .task p.1 (resolveRepoOverride layoutRepo p.2.repo) commitHash p.2.tasks

/-- The image of an optional task set after a fully successful walk:
every unit carries its freshly stamped id. -/
def stampedTaskSet (o : EcsOracle) (dt : DeployType) (cluster clusterRepo commitHash : String) :
    Option TaskSet → Option TaskSet
  | none => none
  | some s =>
    some { s with
      tasks := s.tasks.map (stampedTask o dt cluster (resolveRepoOverride clusterRepo s.repo) commitHash) }

/-- The image of a cluster after a fully successful walk. -/
def stampedCluster (o : EcsOracle) (layoutRepo commitHash : String) (p : String × Cluster) :
    String × Cluster :=
  (p.1,
   { p.2 with
     serviceTasks := stampedTaskSet o .service p.1 (resolveRepoOverride layoutRepo p.2.repo) commitHash p.2.serviceTasks
     tasks := stampedTaskSet o .task p.1 (resolveRepoOverride layoutRepo p.2.repo) commitHash p.2.tasks })

/-- The repository the walk of one task set of a cluster resolves for
its units: the layout repository overridden by the cluster repository,
then by the task-set repository (the composition that updateClustersList
and updateEnvTaskSet apply on the way down). -/
def tsRepo (layoutRepo : String) (c : Cluster) (s : TaskSet) : String :=
  resolveRepoOverride (resolveRepoOverride layoutRepo c.repo) s.repo

theorem list_map_congr_mem {α β : Type} (f g : α → β) :
    ∀ l : List α, (∀ a ∈ l, f a = g a) → l.map f = l.map g
  | [], _ => rfl
  | a :: l, h => by
    simp only [List.map_cons]
    rw [h a (List.mem_cons_self a l),
      list_map_congr_mem f g l (fun b hb => h b (List.mem_cons_of_mem a hb))]

theorem updateTasksList_ok_inv (o : EcsOracle) (dt : DeployType)
    (cluster taskSetRepo commitHash : String) :
    ∀ l : List (String × Task),
      (updateTasksList o dt cluster taskSetRepo commitHash l).2.2 = .ok →
      (updateTasksList o dt cluster taskSetRepo commitHash l).1 =
        l.map (stampedTask o dt cluster taskSetRepo commitHash) ∧
      unitsOk o dt cluster taskSetRepo commitHash l := by
  intro l
  induction l with
  | nil =>
    intro _
    exact ⟨rfl, fun p hp => absurd hp (List.not_mem_nil p)⟩
  | cons q rest ih =>
    obtain ⟨qn, qt⟩ := q
    intro hst
    rcases hu : unitUpdate o dt cluster taskSetRepo commitHash qn qt with ⟨r, tr⟩
    cases r with
    | panicked => simp [updateTasksList, hu] at hst
    | fail e0 => simp [updateTasksList, hu] at hst
    | ok task' =>
      rcases hrec : updateTasksList o dt cluster taskSetRepo commitHash rest with
        ⟨rest', tr2, status⟩
      simp only [updateTasksList, hu, hrec] at hst
      obtain ⟨ih1, ih2⟩ := ih (by rw [hrec]; exact hst)
      rw [hrec] at ih1
      dsimp only at ih1
      constructor
      · simp only [updateTasksList, hu, hrec, List.map_cons, stampedTask]
        exact congrArg _ ih1
      · intro p hp
        rcases List.mem_cons.mp hp with h1 | h2
        · subst h1
          exact ⟨task', tr, hu⟩
        · exact ih2 p h2

theorem updateTasksList_fail_inv (o : EcsOracle) (dt : DeployType)
    (cluster taskSetRepo commitHash : String) :
    ∀ (l : List (String × Task)) (e : Err),
      (updateTasksList o dt cluster taskSetRepo commitHash l).2.2 = .fail e →
      ∃ preT un ut postT,
        l = preT ++ (un, ut) :: postT ∧
        unitsOk o dt cluster taskSetRepo commitHash preT ∧
        (unitUpdate o dt cluster taskSetRepo commitHash un ut).1 = .fail e ∧
        (updateTasksList o dt cluster taskSetRepo commitHash l).1 =
          preT.map (stampedTask o dt cluster taskSetRepo commitHash) ++ (un, ut) :: postT := by
  intro l
  induction l with
  | nil =>
    intro e hst
    simp [updateTasksList] at hst
  | cons q rest ih =>
    obtain ⟨qn, qt⟩ := q
    intro e hst
    rcases hu : unitUpdate o dt cluster taskSetRepo commitHash qn qt with ⟨r, tr⟩
    cases r with
    | panicked => simp [updateTasksList, hu] at hst
    | fail e0 =>
      simp only [updateTasksList, hu] at hst
      injection hst with he
      subst he
      refine ⟨[], qn, qt, rest, rfl, fun p hp => absurd hp (List.not_mem_nil p), ?_, ?_⟩
      · rw [hu]
      · simp [updateTasksList, hu]
    | ok task' =>
      rcases hrec : updateTasksList o dt cluster taskSetRepo commitHash rest with
        ⟨rest', tr2, status⟩
      simp only [updateTasksList, hu, hrec] at hst
      obtain ⟨preT, un, ut, postT, hsplit, hpreT, hfailU, hres⟩ := ih e (by rw [hrec]; exact hst)
      rw [hrec] at hres
      dsimp only at hres
      refine ⟨(qn, qt) :: preT, un, ut, postT, by simp [hsplit], ?_, hfailU, ?_⟩
      · intro p hp
        rcases List.mem_cons.mp hp with h1 | h2
        · subst h1
          exact ⟨task', tr, hu⟩
        · exact hpreT p h2
      · simp only [updateTasksList, hu, hrec, List.map_cons, List.cons_append, stampedTask]
        exact congrArg _ hres

theorem updateEnvTaskSet_ok_inv (o : EcsOracle) (ts : Option TaskSet) (dt : DeployType)
    (cluster clusterRepo commitHash : String)
    (hst : (updateEnvTaskSet o ts dt cluster clusterRepo commitHash).2.2 = .ok) :
    (updateEnvTaskSet o ts dt cluster clusterRepo commitHash).1 =
      stampedTaskSet o dt cluster clusterRepo commitHash ts ∧
    taskSetOk o dt cluster clusterRepo commitHash ts := by
  cases ts with
  | none => exact ⟨rfl, trivial⟩
  | some s =>
    rcases hrec : updateTasksList o dt cluster (resolveRepoOverride clusterRepo s.repo)
        commitHash s.tasks with ⟨tasks', tr, status⟩
    simp only [updateEnvTaskSet, hrec] at hst
    obtain ⟨h1, h2⟩ := updateTasksList_ok_inv o dt cluster
      (resolveRepoOverride clusterRepo s.repo) commitHash s.tasks (by rw [hrec]; exact hst)
    rw [hrec] at h1
    dsimp only at h1
    constructor
    · simp only [updateEnvTaskSet, hrec, stampedTaskSet]
      rw [h1]
    · exact h2

theorem updateEnvTaskSet_fail_inv (o : EcsOracle) (ts : Option TaskSet) (dt : DeployType)
    (cluster clusterRepo commitHash : String) (e : Err)
    (hst : (updateEnvTaskSet o ts dt cluster clusterRepo commitHash).2.2 = .fail e) :
    ∃ s preT un ut postT,
      ts = some s ∧
      s.tasks = preT ++ (un, ut) :: postT ∧
      unitsOk o dt cluster (resolveRepoOverride clusterRepo s.repo) commitHash preT ∧
      (unitUpdate o dt cluster (resolveRepoOverride clusterRepo s.repo) commitHash un ut).1 =
        .fail e ∧
      (updateEnvTaskSet o ts dt cluster clusterRepo commitHash).1 =
        some { s with
          tasks := preT.map (stampedTask o dt cluster (resolveRepoOverride clusterRepo s.repo) commitHash) ++ (un, ut) :: postT } := by
  cases ts with
  | none => simp [updateEnvTaskSet] at hst
  | some s =>
    rcases hrec : updateTasksList o dt cluster (resolveRepoOverride clusterRepo s.repo)
        commitHash s.tasks with ⟨tasks', tr, status⟩
    simp only [updateEnvTaskSet, hrec] at hst
    obtain ⟨preT, un, ut, postT, hsplit, hpreT, hfailU, hres⟩ := updateTasksList_fail_inv o dt
      cluster (resolveRepoOverride clusterRepo s.repo) commitHash s.tasks e
      (by rw [hrec]; exact hst)
    rw [hrec] at hres
    dsimp only at hres
    refine ⟨s, preT, un, ut, postT, rfl, hsplit, hpreT, hfailU, ?_⟩
    simp only [updateEnvTaskSet, hrec]
    rw [hres]

theorem updateEnvCluster_ok_inv (o : EcsOracle) (c : Cluster) (cn cr commitHash : String)
    (hst : (updateEnvCluster o c cn cr commitHash).2.2 = .ok) :
    (updateEnvCluster o c cn cr commitHash).1 =
      { c with
        serviceTasks := stampedTaskSet o .service cn cr commitHash c.serviceTasks
        tasks := stampedTaskSet o .task cn cr commitHash c.tasks } ∧
    taskSetOk o .service cn cr commitHash c.serviceTasks ∧
    taskSetOk o .task cn cr commitHash c.tasks := by
  rcases h1 : updateEnvTaskSet o c.serviceTasks .service cn cr commitHash with ⟨st', tr, s1⟩
  cases s1 with
  | panicked => simp [updateEnvCluster, h1] at hst
  | fail e0 => simp [updateEnvCluster, h1] at hst
  | ok =>
    rcases h2 : updateEnvTaskSet o c.tasks .task cn cr commitHash with ⟨ts', tr2, s2⟩
    simp only [updateEnvCluster, h1, h2] at hst
    subst hst
    obtain ⟨e1, ok1⟩ := updateEnvTaskSet_ok_inv o c.serviceTasks .service cn cr commitHash
      (by rw [h1])
    obtain ⟨e2, ok2⟩ := updateEnvTaskSet_ok_inv o c.tasks .task cn cr commitHash (by rw [h2])
    rw [h1] at e1
    rw [h2] at e2
    dsimp only at e1 e2
    refine ⟨?_, ok1, ok2⟩
    simp only [updateEnvCluster, h1, h2]
    rw [e1, e2]

theorem updateEnvCluster_fail_inv (o : EcsOracle) (c : Cluster) (cn cr commitHash : String)
    (e : Err) (hst : (updateEnvCluster o c cn cr commitHash).2.2 = .fail e) :
    ((updateEnvTaskSet o c.serviceTasks .service cn cr commitHash).2.2 = .fail e ∧
      (updateEnvCluster o c cn cr commitHash).1 =
        { c with serviceTasks := (updateEnvTaskSet o c.serviceTasks .service cn cr commitHash).1 }) ∨
    ((updateEnvTaskSet o c.serviceTasks .service cn cr commitHash).2.2 = .ok ∧
      (updateEnvTaskSet o c.tasks .task cn cr commitHash).2.2 = .fail e ∧
      (updateEnvCluster o c cn cr commitHash).1 =
        { c with
          serviceTasks := (updateEnvTaskSet o c.serviceTasks .service cn cr commitHash).1
          tasks := (updateEnvTaskSet o c.tasks .task cn cr commitHash).1 }) := by
  rcases h1 : updateEnvTaskSet o c.serviceTasks .service cn cr commitHash with ⟨st', tr, s1⟩
  cases s1 with
  | panicked => simp [updateEnvCluster, h1] at hst
  | fail e0 =>
    simp only [updateEnvCluster, h1] at hst
    injection hst with he
    subst he
    left
    constructor
    · rfl
    · simp [updateEnvCluster, h1]
  | ok =>
    rcases h2 : updateEnvTaskSet o c.tasks .task cn cr commitHash with ⟨ts', tr2, s2⟩
    simp only [updateEnvCluster, h1, h2] at hst
    subst hst
    right
    refine ⟨?_, ?_, ?_⟩
    · rfl
    · rfl
    · simp [updateEnvCluster, h1, h2]

theorem updateClustersList_fail_inv (o : EcsOracle) (layoutRepo commitHash : String) :
    ∀ (cs : List (String × Cluster)) (e : Err),
      (updateClustersList o layoutRepo commitHash cs).2.2 = .fail e →
      ∃ preC cn c postC,
        cs = preC ++ (cn, c) :: postC ∧
        (∀ p ∈ preC,
          (updateEnvCluster o p.2 p.1 (resolveRepoOverride layoutRepo p.2.repo) commitHash).2.2 =
            .ok) ∧
        (updateEnvCluster o c cn (resolveRepoOverride layoutRepo c.repo) commitHash).2.2 =
          .fail e ∧
        (updateClustersList o layoutRepo commitHash cs).1 =
          preC.map (fun p =>
            (p.1, (updateEnvCluster o p.2 p.1 (resolveRepoOverride layoutRepo p.2.repo)
              commitHash).1)) ++
            (cn, (updateEnvCluster o c cn (resolveRepoOverride layoutRepo c.repo) commitHash).1) ::
              postC := by
  intro cs
  induction cs with
  | nil =>
    intro e hst
    simp [updateClustersList] at hst
  | cons q rest ih =>
    obtain ⟨qn, qc⟩ := q
    intro e hst
    rcases hu : updateEnvCluster o qc qn (resolveRepoOverride layoutRepo qc.repo) commitHash with
      ⟨c', tr, s1⟩
    cases s1 with
    | panicked => simp [updateClustersList, hu] at hst
    | fail e0 =>
      simp only [updateClustersList, hu] at hst
      injection hst with he
      subst he
      refine ⟨[], qn, qc, rest, rfl, fun p hp => absurd hp (List.not_mem_nil p), ?_, ?_⟩
      · rw [hu]
      · simp [updateClustersList, hu]
    | ok =>
      rcases hrec : updateClustersList o layoutRepo commitHash rest with ⟨rest', tr2, status⟩
      simp only [updateClustersList, hu, hrec] at hst
      obtain ⟨preC, cn, c, postC, hsplit, hpreC, hfailC, hres⟩ := ih e (by rw [hrec]; exact hst)
      rw [hrec] at hres
      dsimp only at hres
      refine ⟨(qn, qc) :: preC, cn, c, postC, by simp [hsplit], ?_, hfailC, ?_⟩
      · intro p hp
        rcases List.mem_cons.mp hp with h1 | h2
        · subst h1
          rw [hu]
        · exact hpreC p h2
      · simp only [updateClustersList, hu, hrec, List.map_cons, List.cons_append]
        exact congrArg _ hres

theorem UpdateEnv_repo (o : EcsOracle) (layout : Layout) (commitHash : String) :
    (UpdateEnv o layout commitHash).1.repo = layout.repo := by
  unfold UpdateEnv
  rcases h : updateClustersList o layout.repo commitHash layout.clusters with ⟨cs, tr, st⟩
  rfl

theorem UpdateEnv_clusters (o : EcsOracle) (layout : Layout) (commitHash : String) :
    (UpdateEnv o layout commitHash).1.clusters =
      (updateClustersList o layout.repo commitHash layout.clusters).1 := by
  unfold UpdateEnv
  rcases h : updateClustersList o layout.repo commitHash layout.clusters with ⟨cs, tr, st⟩
  rfl

theorem UpdateEnv_status (o : EcsOracle) (layout : Layout) (commitHash : String) :
    (UpdateEnv o layout commitHash).2.2 =
      (updateClustersList o layout.repo commitHash layout.clusters).2.2 := by
  unfold UpdateEnv
  rcases h : updateClustersList o layout.repo commitHash layout.clusters with ⟨cs, tr, st⟩
  rfl

/-- C7: whenever the update phase over a whole layout returns an error,
that error is the first per-unit update failure in walk order, and the
phase aborted immediately at it with no rollback of partial progress:
every cluster walked before the failing one had all its units updated
successfully and keeps every freshly stamped Task.id, every cluster
after the failing one is returned untouched; inside the failing
cluster, the units walked before the failing unit keep their stamped
ids, and the failing unit, the units after it and — when the failure
is in the service task set — the whole plain task set are returned
exactly as they were. -/
theorem update_phase_aborts_and_preserves (o : EcsOracle) (layout : Layout)
    (commitHash : String) (e : Err)
    (hfail : (UpdateEnv o layout commitHash).2.2 = .fail e) :
    (UpdateEnv o layout commitHash).1.repo = layout.repo ∧
    ∃ preC cn c postC failC,
      layout.clusters = preC ++ (cn, c) :: postC ∧
      (∀ p ∈ preC, clusterOk o layout.repo commitHash p) ∧
      (UpdateEnv o layout commitHash).1.clusters =
        preC.map (stampedCluster o layout.repo commitHash) ++ (cn, failC) :: postC ∧
      ((∃ s preT un ut postT,
          c.serviceTasks = some s ∧
          s.tasks = preT ++ (un, ut) :: postT ∧
          unitsOk o .service cn (tsRepo layout.repo c s) commitHash preT ∧
          (unitUpdate o .service cn (tsRepo layout.repo c s) commitHash un ut).1 = .fail e ∧
          failC = { c with
            serviceTasks := some { s with
              tasks := preT.map (stampedTask o .service cn (tsRepo layout.repo c s) commitHash) ++ (un, ut) :: postT } }) ∨
       (∃ s preT un ut postT,
          taskSetOk o .service cn (resolveRepoOverride layout.repo c.repo) commitHash
            c.serviceTasks ∧
          c.tasks = some s ∧
          s.tasks = preT ++ (un, ut) :: postT ∧
          unitsOk o .task cn (tsRepo layout.repo c s) commitHash preT ∧
          (unitUpdate o .task cn (tsRepo layout.repo c s) commitHash un ut).1 = .fail e ∧
          failC = { c with
            serviceTasks := stampedTaskSet o .service cn (resolveRepoOverride layout.repo c.repo) commitHash c.serviceTasks
            tasks := some { s with
              tasks := preT.map (stampedTask o .task cn (tsRepo layout.repo c s) commitHash) ++ (un, ut) :: postT } })) := by
  rw [UpdateEnv_status] at hfail
  obtain ⟨preC, cn, c, postC, hsplit, hok, hfailC, hres⟩ :=
    updateClustersList_fail_inv o layout.repo commitHash layout.clusters e hfail
  refine ⟨UpdateEnv_repo o layout commitHash,
    preC, cn, c, postC,
    (updateEnvCluster o c cn (resolveRepoOverride layout.repo c.repo) commitHash).1,
    hsplit, ?_, ?_, ?_⟩
  · intro p hp
    obtain ⟨eq1, ok1, ok2⟩ := updateEnvCluster_ok_inv o p.2 p.1
      (resolveRepoOverride layout.repo p.2.repo) commitHash (hok p hp)
    exact ⟨ok1, ok2⟩
  · rw [UpdateEnv_clusters, hres]
    have hmap : preC.map (fun p =>
        (p.1, (updateEnvCluster o p.2 p.1 (resolveRepoOverride layout.repo p.2.repo)
          commitHash).1)) =
        preC.map (stampedCluster o layout.repo commitHash) := by
      apply list_map_congr_mem
      intro p hp
      obtain ⟨eq1, ok1, ok2⟩ := updateEnvCluster_ok_inv o p.2 p.1
        (resolveRepoOverride layout.repo p.2.repo) commitHash (hok p hp)
      rw [eq1]
      rfl
    rw [hmap]
  · unfold tsRepo
    rcases updateEnvCluster_fail_inv o c cn (resolveRepoOverride layout.repo c.repo) commitHash e
      hfailC with ⟨hf1, hc1⟩ | ⟨hok1, hf2, hc2⟩
    · obtain ⟨s, preT, un, ut, postT, hts, hsplitT, hpreT, hfailU, hres1⟩ :=
        updateEnvTaskSet_fail_inv o c.serviceTasks .service cn
          (resolveRepoOverride layout.repo c.repo) commitHash e hf1
      left
      refine ⟨s, preT, un, ut, postT, hts, hsplitT, hpreT, hfailU, ?_⟩
      rw [hc1, hres1]
    · obtain ⟨s, preT, un, ut, postT, hts, hsplitT, hpreT, hfailU, hres2⟩ :=
        updateEnvTaskSet_fail_inv o c.tasks .task cn
          (resolveRepoOverride layout.repo c.repo) commitHash e hf2
      obtain ⟨esvc, oksvc⟩ := updateEnvTaskSet_ok_inv o c.serviceTasks .service cn
        (resolveRepoOverride layout.repo c.repo) commitHash hok1
      right
      refine ⟨s, preT, un, ut, postT, oksvc, hts, hsplitT, hpreT, hfailU, ?_⟩
      rw [hc2, hres2, esvc]

/-- An oracle under which listing the latest task definition of the
plain-task family named bad fails with a returned error — an error path
the source checks and propagates (part_000:359-361) — while every other
call succeeds. -/
def c7Oracle : EcsOracle where
  describeServiceTaskDef := fun _ _ => .ok "arn-old"
  registerUpdatedTaskDef := fun _ _ => .ok "arn-new"
  updateServiceCall := fun _ _ _ => .ok ()
  latestTaskDefArn := fun family => if family = "bad" then .error "boom" else .ok "arn-old"
  runningTasks := fun _ _ => .ok []
  stopTaskCall := fun _ _ => .ok ()
  serviceDeployments := fun _ _ => .ok []
  taskStatuses := fun _ _ => .ok []

/-- A three-cluster layout whose middle cluster holds the failing
plain-task unit bad between two healthy units. -/
def c7Layout : Layout :=
  { clusters :=
      [ ("c1",
         { repo := ""
           serviceTasks := some { repo := "", tasks := [("svc1", emptyTask)] }
           tasks := none }),
        ("c2",
         { repo := ""
           serviceTasks := some { repo := "", tasks := [("svc2", emptyTask)] }
           tasks := some { repo := ""
                           tasks := [("good", emptyTask), ("bad", emptyTask),
                                     ("later", emptyTask)] } }),
        ("c3",
         { repo := ""
           serviceTasks := some { repo := "", tasks := [("svc3", emptyTask)] }
           tasks := none }) ]
    repo := "r" }

theorem update_phase_aborts_and_preserves_witness :
    (UpdateEnv c7Oracle c7Layout "abc123").1.repo = c7Layout.repo ∧
    ∃ preC cn c postC failC,
      c7Layout.clusters = preC ++ (cn, c) :: postC ∧
      (∀ p ∈ preC, clusterOk c7Oracle c7Layout.repo "abc123" p) ∧
      (UpdateEnv c7Oracle c7Layout "abc123").1.clusters =
        preC.map (stampedCluster c7Oracle c7Layout.repo "abc123") ++ (cn, failC) :: postC ∧
      ((∃ s preT un ut postT,
          c.serviceTasks = some s ∧
          s.tasks = preT ++ (un, ut) :: postT ∧
          unitsOk c7Oracle .service cn (tsRepo c7Layout.repo c s) "abc123" preT ∧
          (unitUpdate c7Oracle .service cn (tsRepo c7Layout.repo c s) "abc123" un ut).1 =
            .fail "boom" ∧
          failC = { c with
            serviceTasks := some { s with
              tasks := preT.map (stampedTask c7Oracle .service cn (tsRepo c7Layout.repo c s) "abc123") ++ (un, ut) :: postT } }) ∨
       (∃ s preT un ut postT,
          taskSetOk c7Oracle .service cn (resolveRepoOverride c7Layout.repo c.repo) "abc123"
            c.serviceTasks ∧
          c.tasks = some s ∧
          s.tasks = preT ++ (un, ut) :: postT ∧
          unitsOk c7Oracle .task cn (tsRepo c7Layout.repo c s) "abc123" preT ∧
          (unitUpdate c7Oracle .task cn (tsRepo c7Layout.repo c s) "abc123" un ut).1 =
            .fail "boom" ∧
          failC = { c with
            serviceTasks := stampedTaskSet c7Oracle .service cn (resolveRepoOverride c7Layout.repo c.repo) "abc123" c.serviceTasks
            tasks := some { s with
              tasks := preT.map (stampedTask c7Oracle .task cn (tsRepo c7Layout.repo c s) "abc123") ++ (un, ut) :: postT } })) :=
  update_phase_aborts_and_preserves c7Oracle c7Layout "abc123" "boom" rfl

/-- An oracle under which service svcA has a running deployment on its
stored revision arn1, while service svcB has no deployment at all, so
svcB is not converged. -/
def splitOracle : EcsOracle where
  describeServiceTaskDef := fun _ _ => .ok "arn-old"
  registerUpdatedTaskDef := fun _ _ => .ok "arn-new"
  updateServiceCall := fun _ _ _ => .ok ()
  latestTaskDefArn := fun _ => .ok "arn-old"
  runningTasks := fun _ _ => .ok []
  stopTaskCall := fun _ _ => .ok ()
  serviceDeployments := fun _ service => if service = "svcA" then .ok [("arn1", 1)] else .ok []
  taskStatuses := fun _ _ => .ok []

/-- A layout with a single cluster whose service task set holds two
units: svcA stamped with revision arn1 and svcB stamped with arn2. -/
def twoServiceLayout : Layout :=
  { clusters :=
      [ ("clusterX",
         { repo := ""
           serviceTasks := some
             { repo := ""
               tasks :=
                 [ ("svcA", { repo := "", temp := false, id := "arn1" }),
                   ("svcB", { repo := "", temp := false, id := "arn2" }) ] }
           tasks := none }) ]
    repo := "r" }

/-- C1: the check phase reports the whole layout converged even though
service unit svcB has no deployment matching its stored revision — the
unit loop of checkEnvTaskSet returns true after examining only the
first service unit, contradicting the every-unit convergence the claim
and the specification state. -/
theorem checkEnv_converged_with_unconverged_service :
    CheckEnv splitOracle twoServiceLayout = .ok true ∧
    checkEcsService splitOracle "clusterX" "svcB" "arn2" = .ok false := by
  constructor
  · rfl
  · rfl

/-- C8: topology resolution for component cas in environment dev yields
one cluster ceramic-dev-cas with exactly the service units
ceramic-dev-cas-api and ceramic-dev-cas-scheduler and exactly the one
plain task ceramic-dev-cas-anchor, which is transient. -/
theorem cas_dev_layout :
    ∃ c : Cluster,
      PopulateEnvLayout "dev" false "cas" =
        .ok { clusters := [("ceramic-dev-cas", c)], repo := "ceramic-dev-cas" } ∧
      (c.serviceTasks.map fun ts => ts.tasks.map Prod.fst) =
        some ["ceramic-dev-cas-api", "ceramic-dev-cas-scheduler"] ∧
      (c.tasks.map fun ts => ts.tasks.map fun p => (p.1, p.2.temp)) =
        some [("ceramic-dev-cas-anchor", true)] := by
  refine
    ⟨{ repo := ""
       serviceTasks := some
         { repo := ""
           tasks := [("ceramic-dev-cas-api", emptyTask), ("ceramic-dev-cas-scheduler", emptyTask)] }
       tasks := some
         { repo := ""
           tasks :=
             [("ceramic-dev-cas-anchor",
               { repo := "ceramic-dev-cas-runner", temp := true, id := "" })] } },
      ?_, rfl, rfl⟩
  rfl

/-- C10: the deploy job constructor stores the freshly resolved layout
in the parameter bag only when no layout entry is present; a layout
already there — for instance one carrying the revision ids stamped by an
earlier update phase — is left untouched, along with the rest of the
state. -/
theorem deployJob_keeps_existing_layout
    (populate : String → Except Err Layout) (registry : String → Except Err String)
    (st st' : JobState) (hok : DeployJob populate registry st = .ok st') :
    ((st.params.lookup LayoutParam).isSome → st' = st) ∧
    (st.params.lookup LayoutParam = none →
      ∃ component clusterLayout,
        st.params.lookup JobParam_Component = some (.str component) ∧
        populate component = .ok clusterLayout ∧
        st'.params.lookup LayoutParam = some (.layout clusterLayout)) := by
  unfold DeployJob at hok
  split at hok
  · rename_i component hc
    split at hok
    · rename_i sha hs
      split at hok
      · simp at hok
      · rename_i clusterLayout hp
        split at hok
        · simp at hok
        · rename_i uri hr
          split at hok
          · rename_i hl
            injection hok with h
            subst h
            constructor
            · intro _
              rfl
            · intro hnone
              rw [hnone] at hl
              simp at hl
          · rename_i hl
            injection hok with h
            constructor
            · intro hsome
              exact absurd hsome hl
            · intro _
              refine ⟨component, clusterLayout, hc, hp, ?_⟩
              rw [← h]
              exact Params.lookup_set st.params LayoutParam (.layout clusterLayout)
    · simp at hok
  · simp at hok

theorem deployJob_keeps_existing_layout_witness :
    (((({ stage := .queued, ts := 0,
          params :=
            [ (JobParam_Component, .str "cas"), (JobParam_Sha, .str "abc123"),
              (LayoutParam, .layout { clusters := [], repo := "old" }) ] } : JobState)).params.lookup
        LayoutParam).isSome →
      ({ stage := .queued, ts := 0,
         params :=
           [ (JobParam_Component, .str "cas"), (JobParam_Sha, .str "abc123"),
             (LayoutParam, .layout { clusters := [], repo := "old" }) ] } : JobState) =
        { stage := .queued, ts := 0,
          params :=
            [ (JobParam_Component, .str "cas"), (JobParam_Sha, .str "abc123"),
              (LayoutParam, .layout { clusters := [], repo := "old" }) ] }) ∧
    ((({ stage := .queued, ts := 0,
         params :=
           [ (JobParam_Component, .str "cas"), (JobParam_Sha, .str "abc123"),
             (LayoutParam, .layout { clusters := [], repo := "old" }) ] } : JobState)).params.lookup
        LayoutParam = none →
      ∃ component clusterLayout,
        (({ stage := .queued, ts := 0,
            params :=
              [ (JobParam_Component, .str "cas"), (JobParam_Sha, .str "abc123"),
                (LayoutParam, .layout { clusters := [], repo := "old" }) ] } : JobState)).params.lookup
            JobParam_Component = some (.str component) ∧
        (fun _ => (.ok { clusters := [], repo := "fresh" } : Except Err Layout)) component =
          .ok clusterLayout ∧
        (({ stage := .queued, ts := 0,
            params :=
              [ (JobParam_Component, .str "cas"), (JobParam_Sha, .str "abc123"),
                (LayoutParam, .layout { clusters := [], repo := "old" }) ] } : JobState)).params.lookup
            LayoutParam = some (.layout clusterLayout)) :=
  deployJob_keeps_existing_layout
    (fun _ => .ok { clusters := [], repo := "fresh" })
    (fun _ => .ok "registry-uri")
    { stage := .queued, ts := 0,
      params :=
        [ (JobParam_Component, .str "cas"), (JobParam_Sha, .str "abc123"),
          (LayoutParam, .layout { clusters := [], repo := "old" }) ] }
    { stage := .queued, ts := 0,
      params :=
        [ (JobParam_Component, .str "cas"), (JobParam_Sha, .str "abc123"),
          (LayoutParam, .layout { clusters := [], repo := "old" }) ] }
    rfl

end CeramicDeploy
